import Mathlib

/-!
Shallow embedding of the trading analytics service defined in
src/trading/app.py.

The service fetches one month of daily closing prices per ticker and serves
four JSON endpoints: /api/auto_trends (three-day streak detection),
/api/momentum (five-day momentum ranking), /api/high_low_performers
(top and bottom momentum performers) and /api/moving_average (20-day SMA
deviation).

Modelling choices:
- A downloaded price frame is modelled by its Close column, a list of
  rationals.  The environment maps each ticker symbol to an optional list of
  closes: `none` models a download exception, an empty download, or a frame
  without a Close column (get_stock_data returns an empty frame on exception,
  and every caller skips a ticker whose frame is empty or lacks Close, so
  these cases are observationally identical); `some closes` models a frame
  whose Close column holds `closes`.
- Python floats are modelled as rationals.  Python round(x, 2) is modelled
  by `round2`, rounding to two decimals with ties to even, as Python rounds.
- Date fields (as_of, dates) are not modelled; no claim concerns them.
- HTTP responses are modelled by `Resp`: constructor `ok` carries the JSON
  payload of a 200 response, `err` the status code and error message.
- In calculate_momentum_data the second guard (pd.to_numeric plus dropna on
  change_pct) never fires in this model, because every change_pct value is a
  rational and hence numeric; the guard coincides with the first emptiness
  check and is folded into it.
-/

/-- Direction of a daily price change, the streak_type strings of app.py. -/
inductive Trend where
  | rise : Trend
  | fall : Trend
  deriving DecidableEq

/-- Sign of a rational number as an integer in -1, 0, 1. -/
def sgn (x : ℚ) : Int :=
  if x < 0 then -1 else if 0 < x then 1 else 0

/-- The pandas pct_change column of a Close series, one entry per day from
the second day on: entry i is (close[i+1] - close[i]) / close[i]. -/
def pctChanges : List ℚ → List ℚ
  | a :: b :: rest => (b - a) / a :: pctChanges (b :: rest)
  | _ => []

/-- Day-to-day differences of a Close series: entry i is close[i+1] - close[i]. -/
def diffs : List ℚ → List ℚ
  | a :: b :: rest => (b - a) :: diffs (b :: rest)
  | _ => []

/-- The per-ticker loop of auto_trends (app.py lines 60 to 84), carrying the
streak counter and the current trend through the change column.  On a
negative change the counter is extended if the trend was already fall and
restarted at 1 otherwise; a positive change behaves symmetrically with rise;
a zero change clears counter and trend.  On reaching a counter of 3 the loop
appends one entry and breaks, modelled by returning the singleton list. -/
def autoScanFrom : Nat → Option Trend → List ℚ → List (Option Trend × Nat)
  | _, _, [] => []
  | s, t, ch :: rest =>
    let s' : Nat :=
      if ch < 0 then (if t = some Trend.fall then s + 1 else 1)
      else if 0 < ch then (if t = some Trend.rise then s + 1 else 1)
      else 0
    let t' : Option Trend :=
      if ch < 0 then some Trend.fall
      else if 0 < ch then some Trend.rise
      else none
    if 3 ≤ s' then [(t', s')] else autoScanFrom s' t' rest

/-- The auto_trends streak scan over a Close series: the loop starts with
streak 0 and no trend and walks the pct_change column. -/
def autoScan (closes : List ℚ) : List (Option Trend × Nat) :=
  autoScanFrom 0 none (pctChanges closes)

/-- Declarative reading of the trend-streak algorithm of spec.md section 4,
on the sign sequence of the daily changes: scan the windows of three
consecutive change signs from the left and report the direction of the first
window whose three signs agree and are nonzero; a zero sign (flat day) blocks
every window through it. -/
def firstTripleS : List Int → Option Trend
  | a :: b :: c :: rest =>
    if a = -1 ∧ b = -1 ∧ c = -1 then some Trend.fall
    else if a = 1 ∧ b = 1 ∧ c = 1 then some Trend.rise
    else firstTripleS (b :: c :: rest)
  | _ => none

/-- Spec-side streak detector: the direction of the first run of three
consecutive same-direction daily close movements, where direction is taken
from the raw close differences. -/
def specStreakDetect (closes : List ℚ) : Option Trend :=
  firstTripleS ((diffs closes).map sgn)

/-- The emission a detected trend produces in the per-ticker loop: one entry
with a streak count of 3, or nothing. -/
def emitOf : Option Trend → List (Option Trend × Nat)
  | some t => [(some t, 3)]
  | none => []

/-- Sign-run summary state (streak, trend) rendered as the literal sign list
it stands for, used to relate loop states to change-sign prefixes. -/
def padOf : Nat → Option Trend → List Int
  | _, none => []
  | s, some Trend.fall => List.replicate s (-1)
  | s, some Trend.rise => List.replicate s 1

/-- Whether a change column contains three consecutive negative entries. -/
def hasFallTriple : List ℚ → Bool
  | a :: b :: c :: rest =>
    (decide (a < 0) && decide (b < 0) && decide (c < 0)) || hasFallTriple (b :: c :: rest)
  | _ => false

/-- Floor of a rational number, computed directly on numerator and
denominator. -/
def ratFloor (q : ℚ) : Int := Int.fdiv q.num q.den

/-- Python round(x, 2): round to two decimal places with ties to even. -/
def round2 (x : ℚ) : ℚ :=
  let y : ℚ := x * 100
  let f : Int := ratFloor y
  let r : ℚ := y - (f : ℚ)
  let n : Int :=
    if r < 1 / 2 then f
    else if 1 / 2 < r then f + 1
    else if f % 2 = 0 then f else f + 1
  (n : ℚ) / 100

/-- The fixed ticker list NIFTY_100 of app.py. -/
def NIFTY_100 : List String :=
  ["RELIANCE.NS", "TCS.NS", "INFY.NS", "HDFCBANK.NS", "ICICIBANK.NS", "SBIN.NS",
   "BHARTIARTL.NS", "HINDUNILVR.NS", "ITC.NS", "LT.NS"]

/-- Per-request data environment: what the market-data pull returns for each
ticker symbol. -/
def Env : Type := String → Option (List ℚ)

/-- The frame a route sees for a ticker after the skip checks: `none` when
the download failed, the frame is empty, or Close is missing. -/
def tickerData (env : Env) (sym : String) : Option (List ℚ) :=
  match env sym with
  | some closes => if closes.isEmpty then none else some closes
  | none => none

/-- A JSON record of the auto_trends results list. -/
structure AutoRow where
  symbol : String
  streak_type : Option Trend
  days : Nat
  last_close : ℚ
  prices : List ℚ
  deriving DecidableEq

/-- The auto_trends result entries for one ticker with Close column
`closes`: the scan emissions, packaged with last close and the last seven
closes rounded to two decimals (df.tail(7)). -/
def autoRowsFor (sym : String) (closes : List ℚ) : List AutoRow :=
  (autoScan closes).map (fun e =>
    { symbol := sym, streak_type := e.1, days := e.2,
      last_close := closes.getD (closes.length - 1) 0,
      prices := (closes.drop (closes.length - 7)).map round2 })

/-- Generic accumulation of per-ticker result lists over the ticker list,
skipping tickers whose frame is invalid, as every route loop does. -/
def rowsOf {α : Type} (f : String → List ℚ → List α)
    (tickers : List String) (env : Env) : List α :=
  tickers.flatMap (fun sym =>
    match tickerData env sym with
    | none => []
    | some closes => f sym closes)

/-- The results list accumulated by the auto_trends route body. -/
def autoRows (tickers : List String) (env : Env) : List AutoRow :=
  rowsOf autoRowsFor tickers env

/-- HTTP response model: a 200 payload or an error status with a message. -/
inductive Resp (α : Type) where
  | ok : α → Resp α
  | err : Nat → String → Resp α
  deriving DecidableEq

/-- HTTP status code of a response. -/
def respStatus {α : Type} : Resp α → Nat
  | Resp.ok _ => 200
  | Resp.err s _ => s

/-- Error message of the auto_trends route. -/
def autoTrendsErrMsg : String := "No trend data found"

/-- The /api/auto_trends endpoint (app.py lines 47 to 89). -/
def autoTrendsEndpoint (env : Env) : Resp (List AutoRow) :=
  let rows := autoRows NIFTY_100 env
  if rows.isEmpty then Resp.err 400 autoTrendsErrMsg else Resp.ok rows

/-- A JSON record of the momentum results. -/
structure MomRow where
  symbol : String
  change_pct : ℚ
  last_close : ℚ
  deriving DecidableEq

/-- The momentum record for one ticker with Close column `closes`:
emitted when the five-day pct_change column has a value, that is when at
least six closes exist; change_pct is the last five-day percentage change
rounded to two decimals (app.py lines 96 to 112). -/
def momentumRowC (sym : String) (closes : List ℚ) : Option MomRow :=
  if 6 ≤ closes.length then
    some { symbol := sym,
           change_pct := round2 ((closes.getD (closes.length - 1) 0 -
             closes.getD (closes.length - 6) 0) / closes.getD (closes.length - 6) 0 * 100),
           last_close := closes.getD (closes.length - 1) 0 }
  else none

/-- The momentum results accumulated over the ticker list. -/
def momentumRows (tickers : List String) (env : Env) : List MomRow :=
  rowsOf (fun sym closes => (momentumRowC sym closes).toList) tickers env

/-- Descending comparison on change_pct, the sort key of
calculate_momentum_data. -/
def momGE (a b : MomRow) : Prop := b.change_pct ≤ a.change_pct

instance : DecidableRel momGE :=
  fun a b => inferInstanceAs (Decidable (b.change_pct ≤ a.change_pct))

instance : IsTotal MomRow momGE := ⟨fun a b => le_total b.change_pct a.change_pct⟩

instance : IsTrans MomRow momGE := ⟨fun _ _ _ hab hbc => le_trans hbc hab⟩

/-- Error message of calculate_momentum_data. -/
def momentumErrMsg : String := "No valid momentum data found"

/-- calculate_momentum_data (app.py lines 94 to 125): the per-ticker records
sorted by change_pct descending, or an error when no ticker produced one. -/
def calculateMomentumData (tickers : List String) (env : Env) :
    List MomRow × Option String :=
  let rows := momentumRows tickers env
  if rows.isEmpty then ([], some momentumErrMsg)
  else (List.insertionSort momGE rows, none)

/-- The /api/momentum endpoint (app.py lines 130 to 138). -/
def momentumEndpoint (env : Env) : Resp (List MomRow) :=
  match calculateMomentumData NIFTY_100 env with
  | (_, some msg) => Resp.err 400 msg
  | (rows, none) => Resp.ok rows

/-- Payload of /api/high_low_performers. -/
structure HLPayload where
  high : List MomRow
  low : List MomRow
  N : Nat
  deriving DecidableEq

/-- The /api/high_low_performers endpoint (app.py lines 143 to 169): top N
and bottom N of the descending momentum ranking, with N lowered to half the
row count when fewer than 3 rows exist. -/
def highLowEndpoint (env : Env) : Resp HLPayload :=
  match calculateMomentumData NIFTY_100 env with
  | (_, some msg) => Resp.err 400 msg
  | (rows, none) =>
    let n : Nat := if rows.length < 3 then rows.length / 2 else 3
    Resp.ok { high := rows.take n, low := rows.drop (rows.length - n), N := n }

/-- A JSON record of the moving_average results. -/
structure MARow where
  symbol : String
  sma_period : Nat
  last_close : ℚ
  last_sma : ℚ
  status : String
  deviation_pct : ℚ
  deriving DecidableEq

/-- The moving-average record for one ticker with Close column `closes`:
emitted when the 20-day rolling mean column has a value, that is when at
least 20 closes exist.  The last rolling-mean value is the mean of the final
20-close window, taken here from the reversed series (app.py lines 181 to
209). -/
def maRowC (sym : String) (closes : List ℚ) : Option MARow :=
  if 20 ≤ closes.length then
    let lastC : ℚ := closes.getD (closes.length - 1) 0
    let sma : ℚ := (closes.reverse.take 20).sum / 20
    some { symbol := sym, sma_period := 20,
           last_close := round2 lastC, last_sma := round2 sma,
           status := if sma < lastC then "Above SMA" else "Below SMA",
           deviation_pct := round2 ((lastC - sma) / sma * 100) }
  else none

/-- The moving-average results accumulated over the ticker list. -/
def maRows (tickers : List String) (env : Env) : List MARow :=
  rowsOf (fun sym closes => (maRowC sym closes).toList) tickers env

/-- Descending comparison on deviation_pct, the sort key of
moving_average_stocks. -/
def maGE (a b : MARow) : Prop := b.deviation_pct ≤ a.deviation_pct

instance : DecidableRel maGE :=
  fun a b => inferInstanceAs (Decidable (b.deviation_pct ≤ a.deviation_pct))

instance : IsTotal MARow maGE := ⟨fun a b => le_total b.deviation_pct a.deviation_pct⟩

instance : IsTrans MARow maGE := ⟨fun _ _ _ hab hbc => le_trans hbc hab⟩

/-- Error message of the moving_average route. -/
def maErrMsg : String := "No valid Moving Average data found"

/-- The /api/moving_average endpoint (app.py lines 176 to 218). -/
def movingAverageEndpoint (env : Env) : Resp (List MARow) :=
  let rows := maRows NIFTY_100 env
  if rows.isEmpty then Resp.err 400 maErrMsg
  else Resp.ok (List.insertionSort maGE rows)

/-- Whether a ticker has valid momentum data in an environment: a usable
frame with at least six closes. -/
def validMomentumB (env : Env) (sym : String) : Bool :=
  match tickerData env sym with
  | some closes => decide (6 ≤ closes.length)
  | none => false

/-- The descending momentum ranking an environment induces. -/
def momSorted (env : Env) : List MomRow :=
  List.insertionSort momGE (momentumRows NIFTY_100 env)

/-! ### Sign lemmas -/

lemma sgn_of_neg {x : ℚ} (h : x < 0) : sgn x = -1 := by
  simp [sgn, h]

lemma sgn_of_pos {x : ℚ} (h : 0 < x) : sgn x = 1 := by
  simp [sgn, h, asymm h]

lemma sgn_zero : sgn 0 = 0 := by
  simp [sgn]

lemma sgn_div_of_pos {x a : ℚ} (ha : 0 < a) : sgn (x / a) = sgn x := by
  rcases lt_trichotomy x 0 with hx | hx | hx
  · rw [sgn_of_neg hx, sgn_of_neg (div_neg_of_neg_of_pos hx ha)]
  · subst hx
    rw [zero_div]
  · rw [sgn_of_pos hx, sgn_of_pos (div_pos hx ha)]

/-- On an all-positive Close series the pct_change column has the same sign
sequence as the raw difference column. -/
lemma pct_sgn : ∀ (closes : List ℚ), (∀ c ∈ closes, 0 < c) →
    (pctChanges closes).map sgn = (diffs closes).map sgn
  | [], _ => rfl
  | [_], _ => rfl
  | a :: b :: rest, h => by
    have ha : 0 < a := h a (by simp)
    have htail : ∀ c ∈ b :: rest, 0 < c := fun c hc => h c (List.mem_cons_of_mem _ hc)
    simp only [pctChanges, diffs, List.map_cons]
    rw [sgn_div_of_pos ha, pct_sgn (b :: rest) htail]

/-! ### Sliding-window lemmas for the spec-side detector -/

lemma ftS_zero (l : List Int) : firstTripleS (0 :: l) = firstTripleS l := by
  cases l with
  | nil => rfl
  | cons b l2 =>
    cases l2 with
    | nil => rfl
    | cons c r =>
      rw [firstTripleS, if_neg (by norm_num), if_neg (by norm_num)]

lemma ftS_negOne_pos (l : List Int) :
    firstTripleS (-1 :: 1 :: l) = firstTripleS (1 :: l) := by
  cases l with
  | nil => rfl
  | cons c r =>
    rw [firstTripleS, if_neg (by norm_num), if_neg (by norm_num)]

lemma ftS_pos_negOne (l : List Int) :
    firstTripleS (1 :: -1 :: l) = firstTripleS (-1 :: l) := by
  cases l with
  | nil => rfl
  | cons c r =>
    rw [firstTripleS, if_neg (by norm_num), if_neg (by norm_num)]

lemma ftS_neg_zero (l : List Int) : firstTripleS (-1 :: 0 :: l) = firstTripleS l := by
  cases l with
  | nil => rfl
  | cons c r =>
    rw [firstTripleS, if_neg (by norm_num), if_neg (by norm_num)]
    exact ftS_zero (c :: r)

lemma ftS_pos_zero (l : List Int) : firstTripleS (1 :: 0 :: l) = firstTripleS l := by
  cases l with
  | nil => rfl
  | cons c r =>
    rw [firstTripleS, if_neg (by norm_num), if_neg (by norm_num)]
    exact ftS_zero (c :: r)

lemma ftS_nn_pos (l : List Int) :
    firstTripleS (-1 :: -1 :: 1 :: l) = firstTripleS (1 :: l) := by
  rw [firstTripleS, if_neg (by norm_num), if_neg (by norm_num)]
  exact ftS_negOne_pos l

lemma ftS_pp_neg (l : List Int) :
    firstTripleS (1 :: 1 :: -1 :: l) = firstTripleS (-1 :: l) := by
  rw [firstTripleS, if_neg (by norm_num), if_neg (by norm_num)]
  exact ftS_pos_negOne l

lemma ftS_nn_zero (l : List Int) :
    firstTripleS (-1 :: -1 :: 0 :: l) = firstTripleS l := by
  rw [firstTripleS, if_neg (by norm_num), if_neg (by norm_num)]
  exact ftS_neg_zero l

lemma ftS_pp_zero (l : List Int) :
    firstTripleS (1 :: 1 :: 0 :: l) = firstTripleS l := by
  rw [firstTripleS, if_neg (by norm_num), if_neg (by norm_num)]
  exact ftS_pos_zero l

lemma ftS_fall (l : List Int) :
    firstTripleS (-1 :: -1 :: -1 :: l) = some Trend.fall := by
  rw [firstTripleS, if_pos (by norm_num)]

lemma ftS_rise (l : List Int) :
    firstTripleS (1 :: 1 :: 1 :: l) = some Trend.rise := by
  rw [firstTripleS, if_neg (by norm_num), if_pos (by norm_num)]

/-- Simulation of the auto_trends loop against the spec-side detector: from
any reachable loop state, the loop on the remaining change column produces
exactly the emission of the first same-direction sign triple of the summary
pad followed by the change signs. -/
lemma scanFrom_eq_spec (ch : List ℚ) : ∀ (s : Nat) (t : Option Trend),
    (s = 0 ∧ t = none) ∨ (s = 1 ∧ t = some Trend.fall) ∨ (s = 2 ∧ t = some Trend.fall) ∨
      (s = 1 ∧ t = some Trend.rise) ∨ (s = 2 ∧ t = some Trend.rise) →
    autoScanFrom s t ch = emitOf (firstTripleS (padOf s t ++ ch.map sgn)) := by
  induction ch with
  | nil =>
    intro s t h
    rcases h with ⟨hs, ht⟩ | ⟨hs, ht⟩ | ⟨hs, ht⟩ | ⟨hs, ht⟩ | ⟨hs, ht⟩ <;>
      subst hs <;> subst ht <;> rfl
  | cons ch0 rest ih =>
    intro s t h
    rcases h with ⟨hs, ht⟩ | ⟨hs, ht⟩ | ⟨hs, ht⟩ | ⟨hs, ht⟩ | ⟨hs, ht⟩ <;> subst hs <;> subst ht
    · -- state (0, none)
      rcases lt_trichotomy ch0 0 with hneg | hzero | hpos
      · have hstep : autoScanFrom 0 none (ch0 :: rest) =
            autoScanFrom 1 (some Trend.fall) rest := by
          simp [autoScanFrom, hneg]
        rw [hstep, ih 1 (some Trend.fall) (Or.inr (Or.inl ⟨rfl, rfl⟩)),
          List.map_cons, sgn_of_neg hneg]
        rfl
      · subst hzero
        have hstep : autoScanFrom 0 none ((0 : ℚ) :: rest) = autoScanFrom 0 none rest := by
          simp [autoScanFrom]
        rw [hstep, ih 0 none (Or.inl ⟨rfl, rfl⟩), List.map_cons, sgn_zero]
        exact congrArg emitOf (ftS_zero _).symm
      · have hnlt : ¬ ch0 < 0 := asymm hpos
        have hstep : autoScanFrom 0 none (ch0 :: rest) =
            autoScanFrom 1 (some Trend.rise) rest := by
          simp [autoScanFrom, hnlt, hpos]
        rw [hstep, ih 1 (some Trend.rise) (Or.inr (Or.inr (Or.inr (Or.inl ⟨rfl, rfl⟩)))),
          List.map_cons, sgn_of_pos hpos]
        rfl
    · -- state (1, fall)
      rcases lt_trichotomy ch0 0 with hneg | hzero | hpos
      · have hstep : autoScanFrom 1 (some Trend.fall) (ch0 :: rest) =
            autoScanFrom 2 (some Trend.fall) rest := by
          simp [autoScanFrom, hneg]
        rw [hstep, ih 2 (some Trend.fall) (Or.inr (Or.inr (Or.inl ⟨rfl, rfl⟩))),
          List.map_cons, sgn_of_neg hneg]
        rfl
      · subst hzero
        have hstep : autoScanFrom 1 (some Trend.fall) ((0 : ℚ) :: rest) =
            autoScanFrom 0 none rest := by
          simp [autoScanFrom]
        rw [hstep, ih 0 none (Or.inl ⟨rfl, rfl⟩), List.map_cons, sgn_zero]
        exact congrArg emitOf (ftS_neg_zero _).symm
      · have hnlt : ¬ ch0 < 0 := asymm hpos
        have hstep : autoScanFrom 1 (some Trend.fall) (ch0 :: rest) =
            autoScanFrom 1 (some Trend.rise) rest := by
          simp [autoScanFrom, hnlt, hpos]
        rw [hstep, ih 1 (some Trend.rise) (Or.inr (Or.inr (Or.inr (Or.inl ⟨rfl, rfl⟩)))),
          List.map_cons, sgn_of_pos hpos]
        exact congrArg emitOf (ftS_negOne_pos _).symm
    · -- state (2, fall)
      rcases lt_trichotomy ch0 0 with hneg | hzero | hpos
      · have hstep : autoScanFrom 2 (some Trend.fall) (ch0 :: rest) =
            [(some Trend.fall, 3)] := by
          simp [autoScanFrom, hneg]
        rw [hstep, List.map_cons, sgn_of_neg hneg]
        exact (congrArg emitOf (ftS_fall _)).symm
      · subst hzero
        have hstep : autoScanFrom 2 (some Trend.fall) ((0 : ℚ) :: rest) =
            autoScanFrom 0 none rest := by
          simp [autoScanFrom]
        rw [hstep, ih 0 none (Or.inl ⟨rfl, rfl⟩), List.map_cons, sgn_zero]
        exact congrArg emitOf (ftS_nn_zero _).symm
      · have hnlt : ¬ ch0 < 0 := asymm hpos
        have hstep : autoScanFrom 2 (some Trend.fall) (ch0 :: rest) =
            autoScanFrom 1 (some Trend.rise) rest := by
          simp [autoScanFrom, hnlt, hpos]
        rw [hstep, ih 1 (some Trend.rise) (Or.inr (Or.inr (Or.inr (Or.inl ⟨rfl, rfl⟩)))),
          List.map_cons, sgn_of_pos hpos]
        exact congrArg emitOf (ftS_nn_pos _).symm
    · -- state (1, rise)
      rcases lt_trichotomy ch0 0 with hneg | hzero | hpos
      · have hstep : autoScanFrom 1 (some Trend.rise) (ch0 :: rest) =
            autoScanFrom 1 (some Trend.fall) rest := by
          simp [autoScanFrom, hneg]
        rw [hstep, ih 1 (some Trend.fall) (Or.inr (Or.inl ⟨rfl, rfl⟩)),
          List.map_cons, sgn_of_neg hneg]
        exact congrArg emitOf (ftS_pos_negOne _).symm
      · subst hzero
        have hstep : autoScanFrom 1 (some Trend.rise) ((0 : ℚ) :: rest) =
            autoScanFrom 0 none rest := by
          simp [autoScanFrom]
        rw [hstep, ih 0 none (Or.inl ⟨rfl, rfl⟩), List.map_cons, sgn_zero]
        exact congrArg emitOf (ftS_pos_zero _).symm
      · have hnlt : ¬ ch0 < 0 := asymm hpos
        have hstep : autoScanFrom 1 (some Trend.rise) (ch0 :: rest) =
            autoScanFrom 2 (some Trend.rise) rest := by
          simp [autoScanFrom, hnlt, hpos]
        rw [hstep, ih 2 (some Trend.rise) (Or.inr (Or.inr (Or.inr (Or.inr ⟨rfl, rfl⟩)))),
          List.map_cons, sgn_of_pos hpos]
        rfl
    · -- state (2, rise)
      rcases lt_trichotomy ch0 0 with hneg | hzero | hpos
      · have hstep : autoScanFrom 2 (some Trend.rise) (ch0 :: rest) =
            autoScanFrom 1 (some Trend.fall) rest := by
          simp [autoScanFrom, hneg]
        rw [hstep, ih 1 (some Trend.fall) (Or.inr (Or.inl ⟨rfl, rfl⟩)),
          List.map_cons, sgn_of_neg hneg]
        exact congrArg emitOf (ftS_pp_neg _).symm
      · subst hzero
        have hstep : autoScanFrom 2 (some Trend.rise) ((0 : ℚ) :: rest) =
            autoScanFrom 0 none rest := by
          simp [autoScanFrom]
        rw [hstep, ih 0 none (Or.inl ⟨rfl, rfl⟩), List.map_cons, sgn_zero]
        exact congrArg emitOf (ftS_pp_zero _).symm
      · have hnlt : ¬ ch0 < 0 := asymm hpos
        have hstep : autoScanFrom 2 (some Trend.rise) (ch0 :: rest) =
            [(some Trend.rise, 3)] := by
          simp [autoScanFrom, hnlt, hpos]
        rw [hstep, List.map_cons, sgn_of_pos hpos]
        exact (congrArg emitOf (ftS_rise _)).symm

/-- The whole-scan corollary of the simulation lemma: the auto_trends scan
output is the emission of the first same-direction triple of the pct_change
sign sequence. -/
lemma autoScan_emit_shape (closes : List ℚ) :
    autoScan closes = emitOf (firstTripleS ((pctChanges closes).map sgn)) := by
  unfold autoScan
  rw [scanFrom_eq_spec (pctChanges closes) 0 none (Or.inl ⟨rfl, rfl⟩)]
  rfl

/-- On positive closes the scan output is the emission of the spec-side
streak detector. -/
lemma autoScan_eq_spec (closes : List ℚ) (hpos : ∀ c ∈ closes, 0 < c) :
    autoScan closes = emitOf (specStreakDetect closes) := by
  rw [autoScan_emit_shape, pct_sgn closes hpos]
  rfl

lemma autoScan_length_le_one (closes : List ℚ) : (autoScan closes).length ≤ 1 := by
  rw [autoScan_emit_shape]
  cases firstTripleS ((pctChanges closes).map sgn) with
  | none => simp [emitOf]
  | some t => simp [emitOf]

lemma autoScan_days (closes : List ℚ) : ∀ e ∈ autoScan closes, e.2 = 3 := by
  rw [autoScan_emit_shape]
  cases firstTripleS ((pctChanges closes).map sgn) with
  | none => simp [emitOf]
  | some t => simp [emitOf]

lemma mem_autoRowsFor {sym : String} {closes : List ℚ} {r : AutoRow}
    (hr : r ∈ autoRowsFor sym closes) : r.symbol = sym ∧ r.days = 3 := by
  rcases List.mem_map.mp hr with ⟨e, he, rfl⟩
  exact ⟨rfl, autoScan_days closes e he⟩

lemma nifty_nodup : NIFTY_100.Nodup := by decide

/-- Across a duplicate-free ticker list, if every per-ticker block consists
of rows labelled with that ticker and has at most one row, then at most one
row of the accumulated results carries any given symbol. -/
lemma flatMap_filter_length_le_one {β : Type} (tickers : List String)
    (F : String → List β) (g : β → String)
    (hsym : ∀ t r, r ∈ F t → g r = t) (hlen : ∀ t, (F t).length ≤ 1)
    (hnd : tickers.Nodup) (s : String) :
    ((tickers.flatMap F).filter (fun r => g r == s)).length ≤ 1 := by
  induction tickers with
  | nil => simp
  | cons t ts ih =>
    rcases List.nodup_cons.mp hnd with ⟨hts, hnds⟩
    rw [List.flatMap_cons, List.filter_append, List.length_append]
    by_cases hteq : t = s
    · subst hteq
      have h2 : List.filter (fun r => g r == t) (ts.flatMap F) = [] := by
        rw [List.filter_eq_nil_iff]
        intro r hr
        rcases List.mem_flatMap.mp hr with ⟨u, hu, hru⟩
        have hgu := hsym u r hru
        simp only [hgu, beq_iff_eq]
        intro heq
        exact hts (heq ▸ hu)
      rw [h2]
      simpa using le_trans (List.length_filter_le _ _) (hlen t)
    · have h1 : List.filter (fun r => g r == s) (F t) = [] := by
        rw [List.filter_eq_nil_iff]
        intro r hr
        have hgt := hsym t r hr
        simp only [hgt, beq_iff_eq]
        exact fun heq => hteq heq
      rw [h1]
      simpa using ih hnds

/-- C1: the trend-streak scan of /api/auto_trends follows the algorithm of
the specification: over an all-positive Close series it emits exactly when
the sign sequence of the daily close movements contains three consecutive
equal nonzero signs, reporting the direction of the first such run with a
count of 3, while a flat (zero-change) day or a direction change restarts
the run. -/
theorem auto_trends_scan_follows_spec (closes : List ℚ)
    (hpos : ∀ c ∈ closes, 0 < c) :
    autoScan closes = emitOf (specStreakDetect closes) :=
  autoScan_eq_spec closes hpos

/-- Witness for C1 at a concrete rising series. -/
theorem auto_trends_scan_follows_spec_witness :
    autoScan [1, 2, 3, 4] = emitOf (specStreakDetect [1, 2, 3, 4]) :=
  auto_trends_scan_follows_spec [1, 2, 3, 4] (by decide)

/-- A closing-price series that contains three consecutive daily declines. -/
def c2CexCloses : List ℚ := [1, 2, 3, 4, 3, 2, 1]

/-- C2 counterexample: this series contains three consecutive daily declines,
yet the streak detector reports trend rise, not fall, because an earlier
run of three rises is found first. -/
theorem three_declines_not_always_reported_fall :
    hasFallTriple (diffs c2CexCloses) = true ∧
    autoScan c2CexCloses = [(some Trend.rise, 3)] ∧
    autoScan c2CexCloses ≠ [(some Trend.fall, 3)] := by
  refine ⟨by norm_num [hasFallTriple, diffs, c2CexCloses],
    by norm_num [autoScan, autoScanFrom, pctChanges, c2CexCloses], ?_⟩
  have h : autoScan c2CexCloses = [(some Trend.rise, 3)] := by
    norm_num [autoScan, autoScanFrom, pctChanges, c2CexCloses]
  rw [h]
  simp

/-- C2 amended: for every all-positive closing-price sequence whose first
run of three consecutive same-direction daily changes is a run of declines,
the streak detector reports streak 3 and trend fall. -/
theorem first_fall_run_reported (closes : List ℚ)
    (hpos : ∀ c ∈ closes, 0 < c)
    (hfall : specStreakDetect closes = some Trend.fall) :
    autoScan closes = [(some Trend.fall, 3)] := by
  rw [autoScan_eq_spec closes hpos, hfall]
  rfl

/-- Witness for the amended C2 at a concrete falling series. -/
theorem first_fall_run_reported_witness :
    autoScan [5, 4, 3, 2] = [(some Trend.fall, 3)] :=
  first_fall_run_reported [5, 4, 3, 2] (by decide)
    (by norm_num [specStreakDetect, diffs, firstTripleS, sgn])

/-- C9: per ticker, /api/auto_trends emits at most one entry, and every
emitted entry has its days field equal to exactly 3. -/
theorem auto_trends_at_most_one_entry_days_three (env : Env) (sym : String) :
    ((autoRows NIFTY_100 env).filter (fun r => r.symbol == sym)).length ≤ 1 ∧
    ∀ r ∈ autoRows NIFTY_100 env, r.days = 3 := by
  constructor
  · refine flatMap_filter_length_le_one NIFTY_100
      (fun sy => match tickerData env sy with
        | none => []
        | some closes => autoRowsFor sy closes)
      (fun r => r.symbol) ?_ ?_ nifty_nodup sym
    · intro t r hr
      simp only at hr
      cases h : tickerData env t with
      | none => simp only [h] at hr; simp at hr
      | some closes =>
        simp only [h] at hr
        exact (mem_autoRowsFor hr).1
    · intro t
      simp only
      cases h : tickerData env t with
      | none => simp [h]
      | some closes =>
        simp only [h]
        unfold autoRowsFor
        rw [List.length_map]
        exact autoScan_length_le_one closes
  · intro r hr
    unfold autoRows rowsOf at hr
    rcases List.mem_flatMap.mp hr with ⟨u, hu, hru⟩
    cases h : tickerData env u with
    | none => simp only [h] at hru; simp at hru
    | some closes =>
      simp only [h] at hru
      exact (mem_autoRowsFor hru).2

/-- Concrete environment with one ticker holding a falling series. -/
def env9 : Env := fun sym => if sym = "RELIANCE.NS" then some [4, 3, 2, 1] else none

/-- The single row /api/auto_trends produces in env9. -/
def row9 : AutoRow :=
  { symbol := "RELIANCE.NS", streak_type := some Trend.fall, days := 3,
    last_close := 1, prices := [4, 3, 2, 1] }

/-- Witness for C9 at a concrete environment. -/
theorem auto_trends_at_most_one_entry_days_three_witness :
    ((autoRows NIFTY_100 env9).filter (fun r => r.symbol == "RELIANCE.NS")).length ≤ 1 ∧
    row9.days = 3 :=
  ⟨(auto_trends_at_most_one_entry_days_three env9 "RELIANCE.NS").1,
   (auto_trends_at_most_one_entry_days_three env9 "RELIANCE.NS").2 row9 (by
    have hdata : tickerData env9 "RELIANCE.NS" = some [4, 3, 2, 1] := by
      norm_num [tickerData, env9]
    have hscan : autoScan [4, 3, 2, 1] = [(some Trend.fall, 3)] := by
      norm_num [autoScan, autoScanFrom, pctChanges]
    have hrows : autoRowsFor "RELIANCE.NS" [4, 3, 2, 1] = [row9] := by
      rw [autoRowsFor, hscan]
      norm_num [row9, round2, ratFloor]
    unfold autoRows rowsOf
    refine List.mem_flatMap.mpr ⟨"RELIANCE.NS", by norm_num [NIFTY_100], ?_⟩
    simp only [hdata]
    rw [hrows]
    simp)⟩

/-! ### Per-ticker accumulation lemmas -/

lemma rowsOf_nil {α : Type} (f : String → List ℚ → List α) (env : Env) :
    rowsOf f [] env = [] := rfl

lemma rowsOf_cons {α : Type} (f : String → List ℚ → List α) (t : String)
    (ts : List String) (env : Env) :
    rowsOf f (t :: ts) env =
      (match tickerData env t with | none => [] | some cs => f t cs) ++ rowsOf f ts env := by
  simp [rowsOf]

lemma momentumRowC_symbol {sym : String} {cs : List ℚ} {r : MomRow}
    (h : momentumRowC sym cs = some r) : r.symbol = sym := by
  unfold momentumRowC at h
  split at h
  · injection h with h'
    subst h'
    rfl
  · exact absurd h (by simp)

lemma maRowC_symbol {sym : String} {cs : List ℚ} {r : MARow}
    (h : maRowC sym cs = some r) : r.symbol = sym := by
  unfold maRowC at h
  split at h
  · injection h with h'
    subst h'
    rfl
  · exact absurd h (by simp)

lemma tickerData_update_self (env : Env) (s : String) (d : Option (List ℚ))
    (hd : d = none ∨ d = some []) :
    tickerData (Function.update env s d) s = none := by
  rcases hd with rfl | rfl <;> simp [tickerData, Function.update_same]

/-- Replacing the frame of one ticker by a failing one removes exactly the
rows labelled with that ticker from the accumulated results and leaves every
other row unchanged. -/
lemma rowsOf_update_filter {α : Type} (f : String → List ℚ → List α) (g : α → String)
    (hg : ∀ sym cs r, r ∈ f sym cs → g r = sym)
    (tickers : List String) (env : Env) (s : String) (d : Option (List ℚ))
    (hd : d = none ∨ d = some []) :
    rowsOf f tickers (Function.update env s d) =
      (rowsOf f tickers env).filter (fun r => g r != s) := by
  induction tickers with
  | nil => rfl
  | cons t ts ih =>
    rw [rowsOf_cons, rowsOf_cons, List.filter_append, ih]
    by_cases hts : t = s
    · subst hts
      rw [tickerData_update_self env t d hd]
      have hblock :
          (match tickerData env t with
            | none => []
            | some cs => f t cs).filter (fun r => g r != t) = [] := by
        rw [List.filter_eq_nil_iff]
        intro r hr
        cases h : tickerData env t with
        | none => simp only [h] at hr; simp at hr
        | some cs =>
          simp only [h] at hr
          simp [hg t cs r hr]
      rw [hblock]
    · have hupdate : tickerData (Function.update env s d) t = tickerData env t := by
        simp [tickerData, Function.update_noteq hts]
      rw [hupdate]
      have hblock :
          (match tickerData env t with
            | none => []
            | some cs => f t cs).filter (fun r => g r != s) =
          (match tickerData env t with
            | none => []
            | some cs => f t cs) := by
        rw [List.filter_eq_self]
        intro r hr
        cases h : tickerData env t with
        | none => simp only [h] at hr; simp at hr
        | some cs =>
          simp only [h] at hr
          simp [hg t cs r hr, hts]
      rw [hblock]

/-- C4: a failure for one ticker — a download exception (frame `none`) or an
empty or Close-less frame (frame `some []`) — removes exactly the rows of
that ticker from each accumulated results list; the rows computed for every
other ticker are unchanged. -/
theorem ticker_failure_drops_only_its_row (tickers : List String) (env : Env)
    (s : String) (d : Option (List ℚ)) (hd : d = none ∨ d = some []) :
    autoRows tickers (Function.update env s d) =
      (autoRows tickers env).filter (fun r => r.symbol != s) ∧
    momentumRows tickers (Function.update env s d) =
      (momentumRows tickers env).filter (fun r => r.symbol != s) ∧
    maRows tickers (Function.update env s d) =
      (maRows tickers env).filter (fun r => r.symbol != s) := by
  refine ⟨?_, ?_, ?_⟩
  · exact rowsOf_update_filter autoRowsFor (fun r => r.symbol)
      (fun sym cs r hr => (mem_autoRowsFor hr).1) tickers env s d hd
  · exact rowsOf_update_filter (fun sym closes => (momentumRowC sym closes).toList)
      (fun r => r.symbol)
      (fun sym cs r hr => momentumRowC_symbol (Option.mem_def.mp (Option.mem_toList.mp hr)))
      tickers env s d hd
  · exact rowsOf_update_filter (fun sym closes => (maRowC sym closes).toList)
      (fun r => r.symbol)
      (fun sym cs r hr => maRowC_symbol (Option.mem_def.mp (Option.mem_toList.mp hr)))
      tickers env s d hd

/-- Concrete environment where every ticker has six closes. -/
def env4 : Env := fun _ => some [100, 100, 100, 100, 100, 110]

/-- Witness for C4: failing one ticker in a fully valid environment. -/
theorem ticker_failure_drops_only_its_row_witness :
    autoRows NIFTY_100 (Function.update env4 "TCS.NS" none) =
      (autoRows NIFTY_100 env4).filter (fun r => r.symbol != "TCS.NS") ∧
    momentumRows NIFTY_100 (Function.update env4 "TCS.NS" none) =
      (momentumRows NIFTY_100 env4).filter (fun r => r.symbol != "TCS.NS") ∧
    maRows NIFTY_100 (Function.update env4 "TCS.NS" none) =
      (maRows NIFTY_100 env4).filter (fun r => r.symbol != "TCS.NS") :=
  ticker_failure_drops_only_its_row NIFTY_100 env4 "TCS.NS" none (Or.inl rfl)

/-! ### Error handling of the four endpoints -/

/-- C3 amended: each endpoint answers 400 with an error message exactly when
its accumulated results list is empty, and 200 with the results otherwise;
in particular, when every ticker fails or is skipped all four endpoints
answer 400.  (For /api/auto_trends an empty results list can also arise from
valid tickers without a three-day streak, so 400 does not imply that all
tickers failed.) -/
theorem endpoints_error_exactly_when_no_rows (env : Env) :
    (respStatus (autoTrendsEndpoint env) = 400 ↔ autoRows NIFTY_100 env = []) ∧
    (respStatus (momentumEndpoint env) = 400 ↔ momentumRows NIFTY_100 env = []) ∧
    (respStatus (highLowEndpoint env) = 400 ↔ momentumRows NIFTY_100 env = []) ∧
    (respStatus (movingAverageEndpoint env) = 400 ↔ maRows NIFTY_100 env = []) ∧
    ((∀ sym ∈ NIFTY_100, tickerData env sym = none) →
      respStatus (autoTrendsEndpoint env) = 400 ∧
      respStatus (momentumEndpoint env) = 400 ∧
      respStatus (highLowEndpoint env) = 400 ∧
      respStatus (movingAverageEndpoint env) = 400) := by
  have hauto : respStatus (autoTrendsEndpoint env) = 400 ↔ autoRows NIFTY_100 env = [] := by
    unfold autoTrendsEndpoint
    by_cases h : autoRows NIFTY_100 env = []
    · simp [h, respStatus]
    · simp [h, respStatus, List.isEmpty_iff]
  have hmom : respStatus (momentumEndpoint env) = 400 ↔ momentumRows NIFTY_100 env = [] := by
    unfold momentumEndpoint calculateMomentumData
    by_cases h : momentumRows NIFTY_100 env = []
    · simp [h, respStatus]
    · simp [h, respStatus, List.isEmpty_iff]
  have hhl : respStatus (highLowEndpoint env) = 400 ↔ momentumRows NIFTY_100 env = [] := by
    unfold highLowEndpoint calculateMomentumData
    by_cases h : momentumRows NIFTY_100 env = []
    · simp [h, respStatus]
    · simp [h, respStatus, List.isEmpty_iff]
  have hma : respStatus (movingAverageEndpoint env) = 400 ↔ maRows NIFTY_100 env = [] := by
    unfold movingAverageEndpoint
    by_cases h : maRows NIFTY_100 env = []
    · simp [h, respStatus]
    · simp [h, respStatus, List.isEmpty_iff]
  have hempty : ∀ (α : Type) (f : String → List ℚ → List α),
      (∀ sym ∈ NIFTY_100, tickerData env sym = none) → rowsOf f NIFTY_100 env = [] := by
    intro α f hall
    unfold rowsOf
    rw [List.flatMap_eq_nil_iff]
    intro sym hs
    rw [hall sym hs]
  exact ⟨hauto, hmom, hhl, hma, fun hall =>
    ⟨hauto.mpr (hempty _ autoRowsFor hall),
     hmom.mpr (hempty _ _ hall),
     hhl.mpr (hempty _ _ hall),
     hma.mpr (hempty _ _ hall)⟩⟩

/-- Environment in which every download fails. -/
def envFail : Env := fun _ => none

/-- Witness for the amended C3: with every ticker failing, all four
endpoints answer 400. -/
theorem endpoints_error_exactly_when_no_rows_witness :
    respStatus (autoTrendsEndpoint envFail) = 400 ∧
    respStatus (momentumEndpoint envFail) = 400 ∧
    respStatus (highLowEndpoint envFail) = 400 ∧
    respStatus (movingAverageEndpoint envFail) = 400 :=
  (endpoints_error_exactly_when_no_rows envFail).2.2.2.2 (fun _ _ => rfl)

/-- Environment whose only successful download is a flat series for one
ticker. -/
def env3 : Env := fun sym => if sym = "RELIANCE.NS" then some [1, 1, 1, 1, 1, 1, 1] else none

/-- C3 counterexample: in env3 the RELIANCE ticker downloads a valid
nonempty frame and is not skipped, yet /api/auto_trends still answers 400,
because the flat series contains no three-day streak; so a 400 answer does
not require that every ticker failed or was skipped. -/
theorem auto_trends_400_despite_valid_ticker :
    tickerData env3 "RELIANCE.NS" = some [1, 1, 1, 1, 1, 1, 1] ∧
    autoTrendsEndpoint env3 = Resp.err 400 autoTrendsErrMsg := by
  have h1 : tickerData env3 "RELIANCE.NS" = some [1, 1, 1, 1, 1, 1, 1] := by
    norm_num [tickerData, env3]
  have h2 : ∀ sym : String, sym ≠ "RELIANCE.NS" → tickerData env3 sym = none := by
    intro sym hs
    simp [tickerData, env3, hs]
  have hscan : autoScan [1, 1, 1, 1, 1, 1, 1] = [] := by
    norm_num [autoScan, autoScanFrom, pctChanges]
  have hrows : autoRows NIFTY_100 env3 = [] := by
    unfold autoRows
    simp only [NIFTY_100, rowsOf_cons, rowsOf_nil, h1,
      h2 "TCS.NS" (by decide), h2 "INFY.NS" (by decide), h2 "HDFCBANK.NS" (by decide),
      h2 "ICICIBANK.NS" (by decide), h2 "SBIN.NS" (by decide), h2 "BHARTIARTL.NS" (by decide),
      h2 "HINDUNILVR.NS" (by decide), h2 "ITC.NS" (by decide), h2 "LT.NS" (by decide)]
    simp [autoRowsFor, hscan]
  exact ⟨h1, by simp [autoTrendsEndpoint, hrows]⟩

/-! ### Momentum and moving-average formulas -/

lemma getD_mem {l : List ℚ} {n : Nat} (h : n < l.length) (d : ℚ) : l.getD n d ∈ l := by
  rw [List.getD_eq_getElem?_getD, List.getElem?_eq_getElem h, Option.getD_some]
  exact List.getElem_mem h

/-- C5: for a ticker with at least six closes (so that the five-day
pct_change column is populated) and positive prices, the reported momentum
record carries change_pct equal to the percentage change of the last close
against the close five trading days earlier, (close[last]/close[last-5] - 1)
times 100, rounded to two decimals, together with the raw last close. -/
theorem momentum_change_pct_formula (sym : String) (closes : List ℚ)
    (h6 : 6 ≤ closes.length) (hpos : ∀ c ∈ closes, 0 < c) :
    momentumRowC sym closes = some
      { symbol := sym,
        change_pct := round2 ((closes.getD (closes.length - 1) 0 /
          closes.getD (closes.length - 6) 0 - 1) * 100),
        last_close := closes.getD (closes.length - 1) 0 } := by
  have hlt : closes.length - 6 < closes.length := by omega
  have hprev : 0 < closes.getD (closes.length - 6) 0 := hpos _ (getD_mem hlt 0)
  have harg : (closes.getD (closes.length - 1) 0 - closes.getD (closes.length - 6) 0) /
      closes.getD (closes.length - 6) 0 =
      closes.getD (closes.length - 1) 0 / closes.getD (closes.length - 6) 0 - 1 := by
    rw [sub_div, div_self (ne_of_gt hprev)]
  unfold momentumRowC
  rw [if_pos h6, harg]

/-- Witness for C5 at a concrete six-close series. -/
theorem momentum_change_pct_formula_witness :
    momentumRowC "RELIANCE.NS" ([100, 100, 100, 100, 100, 110] : List ℚ) = some
      { symbol := "RELIANCE.NS",
        change_pct := round2 ((([100, 100, 100, 100, 100, 110] : List ℚ).getD
            (([100, 100, 100, 100, 100, 110] : List ℚ).length - 1) 0 /
          ([100, 100, 100, 100, 100, 110] : List ℚ).getD
            (([100, 100, 100, 100, 100, 110] : List ℚ).length - 6) 0 - 1) * 100),
        last_close := ([100, 100, 100, 100, 100, 110] : List ℚ).getD
          (([100, 100, 100, 100, 100, 110] : List ℚ).length - 1) 0 } :=
  momentum_change_pct_formula "RELIANCE.NS" [100, 100, 100, 100, 100, 110]
    (by decide) (by decide)

/-- The sum of the first n entries of the reversed list is the sum of the
last n entries of the list. -/
lemma sum_reverse_take (n : Nat) (l : List ℚ) :
    (l.reverse.take n).sum = (l.drop (l.length - n)).sum := by
  calc (l.reverse.take n).sum
      = (l.reverse.take n).reverse.sum := (List.sum_reverse _).symm
    _ = (l.rtake n).sum := by rw [← List.rtake_eq_reverse_take_reverse]
    _ = (l.drop (l.length - n)).sum := rfl

/-- C6: for a ticker with at least twenty closes, the reported
moving-average record carries last_sma equal to the arithmetic mean of the
last twenty closes and deviation_pct equal to
((last_close - sma) / sma) times 100, each rounded to two decimals, where
the formulas use the exact (unrounded) values. -/
theorem moving_average_sma_deviation_formula (sym : String) (closes : List ℚ)
    (h20 : 20 ≤ closes.length) :
    maRowC sym closes = some
      { symbol := sym, sma_period := 20,
        last_close := round2 (closes.getD (closes.length - 1) 0),
        last_sma := round2 ((closes.drop (closes.length - 20)).sum / 20),
        status := if (closes.drop (closes.length - 20)).sum / 20 <
            closes.getD (closes.length - 1) 0 then "Above SMA" else "Below SMA",
        deviation_pct := round2 ((closes.getD (closes.length - 1) 0 -
          (closes.drop (closes.length - 20)).sum / 20) /
          ((closes.drop (closes.length - 20)).sum / 20) * 100) } := by
  unfold maRowC
  rw [if_pos h20, sum_reverse_take 20 closes]

/-- A concrete twenty-close series. -/
def c6Closes : List ℚ := List.replicate 19 100 ++ [120]

/-- Witness for C6 at a concrete twenty-close series. -/
theorem moving_average_sma_deviation_formula_witness :
    maRowC "RELIANCE.NS" c6Closes = some
      { symbol := "RELIANCE.NS", sma_period := 20,
        last_close := round2 (c6Closes.getD (c6Closes.length - 1) 0),
        last_sma := round2 ((c6Closes.drop (c6Closes.length - 20)).sum / 20),
        status := if (c6Closes.drop (c6Closes.length - 20)).sum / 20 <
            c6Closes.getD (c6Closes.length - 1) 0 then "Above SMA" else "Below SMA",
        deviation_pct := round2 ((c6Closes.getD (c6Closes.length - 1) 0 -
          (c6Closes.drop (c6Closes.length - 20)).sum / 20) /
          ((c6Closes.drop (c6Closes.length - 20)).sum / 20) * 100) } :=
  moving_average_sma_deviation_formula "RELIANCE.NS" c6Closes (by decide)

/-! ### Momentum ranking -/

/-- C7: whenever /api/momentum answers 200 with a list, that list is a
permutation of the per-ticker momentum records (one record for every ticker
with valid momentum data), it is sorted by change_pct in descending order,
and every valid ticker appears in it. -/
theorem momentum_returns_all_valid_sorted (env : Env) (l : List MomRow)
    (h : momentumEndpoint env = Resp.ok l) :
    l.Perm (momentumRows NIFTY_100 env) ∧
    l.Sorted momGE ∧
    (∀ sym ∈ NIFTY_100, validMomentumB env sym = true → ∃ r ∈ l, r.symbol = sym) := by
  unfold momentumEndpoint calculateMomentumData at h
  by_cases hrows : (momentumRows NIFTY_100 env).isEmpty
  · rw [if_pos hrows] at h
    simp at h
  · rw [if_neg hrows] at h
    have hl : l = List.insertionSort momGE (momentumRows NIFTY_100 env) := by
      injection h with h'
      exact h'.symm
    subst hl
    refine ⟨List.perm_insertionSort _ _, List.sorted_insertionSort _ _, ?_⟩
    intro sym hsym hvalid
    unfold validMomentumB at hvalid
    cases hdata : tickerData env sym with
    | none =>
      simp only [hdata] at hvalid
      exact absurd hvalid (by simp)
    | some closes =>
      simp only [hdata] at hvalid
      have h6 : 6 ≤ closes.length := of_decide_eq_true hvalid
      have hrow : ∃ r, momentumRowC sym closes = some r ∧ r.symbol = sym := by
        unfold momentumRowC
        rw [if_pos h6]
        exact ⟨_, rfl, rfl⟩
      rcases hrow with ⟨r, hr, hrs⟩
      refine ⟨r, ?_, hrs⟩
      rw [List.mem_insertionSort]
      unfold momentumRows rowsOf
      refine List.mem_flatMap.mpr ⟨sym, hsym, ?_⟩
      simp only [hdata]
      simp [hr]

/-- Environment with two valid tickers of distinct momentum. -/
def env7 : Env := fun sym =>
  if sym = "RELIANCE.NS" then some [100, 100, 100, 100, 100, 110]
  else if sym = "TCS.NS" then some [100, 100, 100, 100, 100, 105]
  else none

/-- The momentum record of the RELIANCE ticker in env7. -/
def momRowR : MomRow := { symbol := "RELIANCE.NS", change_pct := 10, last_close := 110 }

/-- The momentum record of the TCS ticker in env7. -/
def momRowT : MomRow := { symbol := "TCS.NS", change_pct := 5, last_close := 105 }

lemma momentumRows_env7 : momentumRows NIFTY_100 env7 = [momRowR, momRowT] := by
  have h1 : tickerData env7 "RELIANCE.NS" = some [100, 100, 100, 100, 100, 110] := by
    norm_num [tickerData, env7]
  have h1b : tickerData env7 "TCS.NS" = some [100, 100, 100, 100, 100, 105] := by
    have e : env7 "TCS.NS" = some [100, 100, 100, 100, 100, 105] := by
      unfold env7
      rw [if_neg (by decide), if_pos rfl]
    simp [tickerData, e]
  have h2 : ∀ sym : String, sym ≠ "RELIANCE.NS" → sym ≠ "TCS.NS" →
      tickerData env7 sym = none := by
    intro sym hs1 hs2
    simp [tickerData, env7, hs1, hs2]
  unfold momentumRows
  simp only [NIFTY_100, rowsOf_cons, rowsOf_nil, h1, h1b,
    h2 "INFY.NS" (by decide) (by decide), h2 "HDFCBANK.NS" (by decide) (by decide),
    h2 "ICICIBANK.NS" (by decide) (by decide), h2 "SBIN.NS" (by decide) (by decide),
    h2 "BHARTIARTL.NS" (by decide) (by decide), h2 "HINDUNILVR.NS" (by decide) (by decide),
    h2 "ITC.NS" (by decide) (by decide), h2 "LT.NS" (by decide) (by decide)]
  norm_num [momentumRowC, round2, ratFloor, momRowR, momRowT,
    List.getD_cons_succ, List.getD_cons_zero]

lemma momentumEndpoint_env7 :
    momentumEndpoint env7 = Resp.ok [momRowR, momRowT] := by
  unfold momentumEndpoint calculateMomentumData
  rw [momentumRows_env7]
  norm_num [List.insertionSort, List.orderedInsert, momGE, momRowR, momRowT]

/-- Witness for C7 at env7. -/
theorem momentum_returns_all_valid_sorted_witness :
    ([momRowR, momRowT] : List MomRow).Perm (momentumRows NIFTY_100 env7) ∧
    ([momRowR, momRowT] : List MomRow).Sorted momGE ∧
    (∀ sym ∈ NIFTY_100, validMomentumB env7 sym = true →
      ∃ r ∈ ([momRowR, momRowT] : List MomRow), r.symbol = sym) :=
  momentum_returns_all_valid_sorted env7 [momRowR, momRowT] momentumEndpoint_env7

/-! ### High and low performers -/

/-- In a sorted list, every element of an n-prefix relates to every element
of an m-suffix once n is at most m. -/
lemma sorted_take_le_drop {α : Type} {r : α → α → Prop} {l : List α} (hs : l.Sorted r)
    {n m : Nat} (hnm : n ≤ m) {a b : α} (ha : a ∈ l.take n) (hb : b ∈ l.drop m) : r a b := by
  have hb' : b ∈ l.drop n := List.drop_subset_drop_left l hnm hb
  have hl := hs
  rw [← List.take_append_drop n l] at hl
  exact (List.pairwise_append.mp hl).2.2 a ha b hb'

/-- C8 amended: when at least three tickers are valid, the endpoint keeps
N = 3 and reports as high the first three and as low the last three entries
of the descending momentum ranking — a choice of the three largest and the
three smallest change_pct values.  With at least six valid tickers every
high record has change_pct at least that of every low record; with three to
five valid tickers the two lists overlap and that comparison can fail. -/
theorem high_low_top3_bottom3 (env : Env) (p : HLPayload)
    (h : highLowEndpoint env = Resp.ok p)
    (h3 : 3 ≤ (momSorted env).length) :
    p.N = 3 ∧
    p.high = (momSorted env).take 3 ∧
    p.low = (momSorted env).drop ((momSorted env).length - 3) ∧
    (momSorted env).Sorted momGE ∧
    (momSorted env).Perm (momentumRows NIFTY_100 env) ∧
    (6 ≤ (momSorted env).length →
      ∀ hi ∈ p.high, ∀ lo ∈ p.low, lo.change_pct ≤ hi.change_pct) := by
  have hlen3 : ¬ (List.insertionSort momGE (momentumRows NIFTY_100 env)).length < 3 :=
    not_lt.mpr h3
  have hlen3m : ¬ (momentumRows NIFTY_100 env).length < 3 := by
    rw [List.length_insertionSort] at hlen3
    exact hlen3
  unfold highLowEndpoint calculateMomentumData at h
  by_cases hrows : (momentumRows NIFTY_100 env).isEmpty
  · rw [if_pos hrows] at h
    simp at h
  · rw [if_neg hrows] at h
    simp only [Resp.ok.injEq] at h
    subst h
    refine ⟨?_, ?_, ?_, List.sorted_insertionSort _ _, List.perm_insertionSort _ _, ?_⟩
    · simp [momSorted, hlen3m]
    · simp [momSorted, hlen3m]
    · simp [momSorted, hlen3m]
    · intro h6 hi hhi lo hlo
      simp only [momSorted, List.length_insertionSort] at h6
      simp only [List.length_insertionSort, hlen3m, if_false, ite_false] at hhi hlo
      exact sorted_take_le_drop (List.sorted_insertionSort momGE _) (by omega) hhi hlo

/-- Environment with four valid tickers of momentum 10, 5, 3 and 1. -/
def env8 : Env := fun sym =>
  if sym = "RELIANCE.NS" then some [100, 100, 100, 100, 100, 110]
  else if sym = "TCS.NS" then some [100, 100, 100, 100, 100, 105]
  else if sym = "INFY.NS" then some [100, 100, 100, 100, 100, 103]
  else if sym = "HDFCBANK.NS" then some [100, 100, 100, 100, 100, 101]
  else none

/-- The momentum record of the INFY ticker in env8. -/
def rowI3 : MomRow := { symbol := "INFY.NS", change_pct := 3, last_close := 103 }

/-- The momentum record of the HDFCBANK ticker in env8. -/
def rowH1 : MomRow := { symbol := "HDFCBANK.NS", change_pct := 1, last_close := 101 }

lemma momentumRows_env8 :
    momentumRows NIFTY_100 env8 = [momRowR, momRowT, rowI3, rowH1] := by
  have h1 : tickerData env8 "RELIANCE.NS" = some [100, 100, 100, 100, 100, 110] := by
    norm_num [tickerData, env8]
  have h1b : tickerData env8 "TCS.NS" = some [100, 100, 100, 100, 100, 105] := by
    have e : env8 "TCS.NS" = some [100, 100, 100, 100, 100, 105] := by
      unfold env8
      rw [if_neg (by decide), if_pos rfl]
    simp [tickerData, e]
  have h1c : tickerData env8 "INFY.NS" = some [100, 100, 100, 100, 100, 103] := by
    have e : env8 "INFY.NS" = some [100, 100, 100, 100, 100, 103] := by
      unfold env8
      rw [if_neg (by decide), if_neg (by decide), if_pos rfl]
    simp [tickerData, e]
  have h1d : tickerData env8 "HDFCBANK.NS" = some [100, 100, 100, 100, 100, 101] := by
    have e : env8 "HDFCBANK.NS" = some [100, 100, 100, 100, 100, 101] := by
      unfold env8
      rw [if_neg (by decide), if_neg (by decide), if_neg (by decide), if_pos rfl]
    simp [tickerData, e]
  have h2 : ∀ sym : String, sym ≠ "RELIANCE.NS" → sym ≠ "TCS.NS" → sym ≠ "INFY.NS" →
      sym ≠ "HDFCBANK.NS" → tickerData env8 sym = none := by
    intro sym hs1 hs2 hs3 hs4
    simp [tickerData, env8, hs1, hs2, hs3, hs4]
  unfold momentumRows
  simp only [NIFTY_100, rowsOf_cons, rowsOf_nil, h1, h1b, h1c, h1d,
    h2 "ICICIBANK.NS" (by decide) (by decide) (by decide) (by decide),
    h2 "SBIN.NS" (by decide) (by decide) (by decide) (by decide),
    h2 "BHARTIARTL.NS" (by decide) (by decide) (by decide) (by decide),
    h2 "HINDUNILVR.NS" (by decide) (by decide) (by decide) (by decide),
    h2 "ITC.NS" (by decide) (by decide) (by decide) (by decide),
    h2 "LT.NS" (by decide) (by decide) (by decide) (by decide)]
  norm_num [momentumRowC, round2, ratFloor, momRowR, momRowT, rowI3, rowH1,
    List.getD_cons_succ, List.getD_cons_zero]

lemma sortRows_env8 : List.insertionSort momGE [momRowR, momRowT, rowI3, rowH1] =
    [momRowR, momRowT, rowI3, rowH1] := by
  norm_num [List.insertionSort, List.orderedInsert, momGE, momRowR, momRowT, rowI3, rowH1]

lemma momSorted_env8 : momSorted env8 = [momRowR, momRowT, rowI3, rowH1] := by
  unfold momSorted
  rw [momentumRows_env8, sortRows_env8]

/-- The payload /api/high_low_performers produces in env8. -/
def p8 : HLPayload :=
  { high := [momRowR, momRowT, rowI3], low := [momRowT, rowI3, rowH1], N := 3 }

lemma highLow_env8 : highLowEndpoint env8 = Resp.ok p8 := by
  unfold highLowEndpoint calculateMomentumData
  rw [momentumRows_env8]
  norm_num [List.insertionSort, List.orderedInsert, momGE, momRowR, momRowT, rowI3, rowH1, p8]

/-- C8 counterexample: with four valid tickers the high and low lists
overlap; the high list contains the INFY record with change_pct 3 while the
low list contains the TCS record with change_pct 5, so not every high record
has change_pct at least that of every low record. -/
theorem high_low_comparison_fails_on_overlap :
    highLowEndpoint env8 = Resp.ok p8 ∧
    rowI3 ∈ p8.high ∧ momRowT ∈ p8.low ∧
    rowI3.change_pct < momRowT.change_pct := by
  refine ⟨highLow_env8, by simp [p8], by simp [p8], ?_⟩
  norm_num [rowI3, momRowT]

/-- Witness for the amended C8 at env8. -/
theorem high_low_top3_bottom3_witness :
    p8.N = 3 ∧
    p8.high = (momSorted env8).take 3 ∧
    p8.low = (momSorted env8).drop ((momSorted env8).length - 3) ∧
    (momSorted env8).Sorted momGE ∧
    (momSorted env8).Perm (momentumRows NIFTY_100 env8) ∧
    (6 ≤ (momSorted env8).length →
      ∀ hi ∈ p8.high, ∀ lo ∈ p8.low, lo.change_pct ≤ hi.change_pct) :=
  high_low_top3_bottom3 env8 p8 highLow_env8 (by rw [momSorted_env8]; decide)

/-- C10: when between one and two tickers have valid momentum data,
/api/high_low_performers lowers N to half the row count (integer division),
answers 200, and returns exactly N records in each of high and low; with
exactly one valid ticker both lists are empty. -/
theorem high_low_small_row_count (env : Env)
    (h1 : 1 ≤ (momentumRows NIFTY_100 env).length)
    (h3 : (momentumRows NIFTY_100 env).length < 3) :
    ∃ p, highLowEndpoint env = Resp.ok p ∧
      p.N = (momentumRows NIFTY_100 env).length / 2 ∧
      p.high.length = (momentumRows NIFTY_100 env).length / 2 ∧
      p.low.length = (momentumRows NIFTY_100 env).length / 2 ∧
      ((momentumRows NIFTY_100 env).length = 1 → p.high = [] ∧ p.low = []) := by
  have hne : ¬ (momentumRows NIFTY_100 env).isEmpty = true := by
    rw [List.isEmpty_iff]
    intro hnil
    rw [hnil] at h1
    simp at h1
  have hslen : (List.insertionSort momGE (momentumRows NIFTY_100 env)).length =
      (momentumRows NIFTY_100 env).length := List.length_insertionSort _ _
  have hend : highLowEndpoint env = Resp.ok
      { high := (List.insertionSort momGE (momentumRows NIFTY_100 env)).take
          ((momentumRows NIFTY_100 env).length / 2),
        low := (List.insertionSort momGE (momentumRows NIFTY_100 env)).drop
          ((momentumRows NIFTY_100 env).length -
            (momentumRows NIFTY_100 env).length / 2),
        N := (momentumRows NIFTY_100 env).length / 2 } := by
    unfold highLowEndpoint calculateMomentumData
    rw [if_neg hne]
    simp only [hslen, if_pos h3]
  refine ⟨_, hend, rfl, ?_, ?_, ?_⟩
  · rw [List.length_take, hslen]
    omega
  · rw [List.length_drop, hslen]
    omega
  · intro hk1
    constructor
    · have h0 : (momentumRows NIFTY_100 env).length / 2 = 0 := by omega
      rw [h0, List.take_zero]
    · exact List.drop_eq_nil_of_le (by rw [hslen]; omega)

/-- Environment with exactly one valid ticker. -/
def env10 : Env := fun sym =>
  if sym = "RELIANCE.NS" then some [100, 100, 100, 100, 100, 110] else none

lemma momentumRows_env10 : momentumRows NIFTY_100 env10 = [momRowR] := by
  have h1 : tickerData env10 "RELIANCE.NS" = some [100, 100, 100, 100, 100, 110] := by
    norm_num [tickerData, env10]
  have h2 : ∀ sym : String, sym ≠ "RELIANCE.NS" → tickerData env10 sym = none := by
    intro sym hs
    simp [tickerData, env10, hs]
  unfold momentumRows
  simp only [NIFTY_100, rowsOf_cons, rowsOf_nil, h1,
    h2 "TCS.NS" (by decide), h2 "INFY.NS" (by decide), h2 "HDFCBANK.NS" (by decide),
    h2 "ICICIBANK.NS" (by decide), h2 "SBIN.NS" (by decide), h2 "BHARTIARTL.NS" (by decide),
    h2 "HINDUNILVR.NS" (by decide), h2 "ITC.NS" (by decide), h2 "LT.NS" (by decide)]
  norm_num [momentumRowC, round2, ratFloor, momRowR,
    List.getD_cons_succ, List.getD_cons_zero]

/-- Witness for C10 at an environment with a single valid ticker. -/
theorem high_low_small_row_count_witness :
    ∃ p, highLowEndpoint env10 = Resp.ok p ∧
      p.N = (momentumRows NIFTY_100 env10).length / 2 ∧
      p.high.length = (momentumRows NIFTY_100 env10).length / 2 ∧
      p.low.length = (momentumRows NIFTY_100 env10).length / 2 ∧
      ((momentumRows NIFTY_100 env10).length = 1 → p.high = [] ∧ p.low = []) :=
  high_low_small_row_count env10
    (by rw [momentumRows_env10]; decide)
    (by rw [momentumRows_env10]; decide)
